import Mathlib

/-!
# Verification of the software rendering pipeline (Proyecto_Planetas)

Shallow embedding of the pipeline code (`src/rasterizer.rs`,
`src/primitive_assembly.rs`, `src/fragment_shader.rs`, `src/matrix.rs`,
`src/renderer.rs`) over exact rational arithmetic: every `f32` value is
modelled as `ℚ`, Rust's `as i32` cast as truncation toward zero,
`clamp(0.0,255.0) as u8` as clamped truncation into `ℕ`, and the fallible
slice index in `assemble_triangles` (which panics when out of range) as
`Option`.  Loops that push into a `Vec` are modelled as list comprehensions
over explicit integer ranges.

The only operation of the modelled code with no exact rational counterpart
is `f32::sqrt`, used by `normalize_vector3` in the fragment shader; the
functions that depend on it take the square-root operation as an explicit
parameter `sq : ℚ → ℚ`, and every theorem below holds for all `sq`.
-/

namespace Planetas

/-- Three-component vector (`raylib::Vector3`) with exact coordinates. -/
structure Vec3 where
  x : ℚ
  y : ℚ
  z : ℚ
deriving DecidableEq, Repr, Inhabited

/-- RGBA color (`raylib::Color`); each channel is a `u8`, modelled as `ℕ`
(every value produced below lies in `[0,255]`). -/
structure Color where
  r : ℕ
  g : ℕ
  b : ℕ
  a : ℕ
deriving DecidableEq, Repr, Inhabited

/-- Output of the vertex shader (`src/vertex_shader.rs`): screen position,
world-space normal and pass-through color. -/
structure VertexShaderOutput where
  screen_position : Vec3
  world_normal : Vec3
  color : Color
deriving DecidableEq, Repr, Inhabited

/-- A triangle of three processed vertices (`src/primitive_assembly.rs`,
`Triangle`); the Rust array `vertices: [VertexShaderOutput; 3]` is modelled
as three named fields. -/
structure Triangle where
  v0 : VertexShaderOutput
  v1 : VertexShaderOutput
  v2 : VertexShaderOutput
deriving DecidableEq, Repr, Inhabited

/-- A fragment produced by the rasterizer (`src/rasterizer.rs`, `Fragment`). -/
structure Fragment where
  screen_x : ℤ
  screen_y : ℤ
  depth : ℚ
  normal : Vec3
  color : Color
deriving DecidableEq, Repr, Inhabited

/-- Rust's `as i32` cast of a float: truncation toward zero. -/
def truncToInt (q : ℚ) : ℤ :=
  if 0 ≤ q then ⌊q⌋ else ⌈q⌉

/-- Rust `f32::clamp(lo, hi)`. -/
def clampQ (q lo hi : ℚ) : ℚ :=
  min (max q lo) hi

/-- Rust `value.clamp(0.0, 255.0) as u8`: clamp into `[0,255]`, then truncate. -/
def u8ofQ (q : ℚ) : ℕ :=
  (truncToInt (clampQ q 0 255)).toNat

/-- The inclusive integer range `a..=b` of a Rust `for` loop, as a list. -/
def intRangeIncl (a b : ℤ) : List ℤ :=
  if a ≤ b then (List.range (b - a).toNat.succ).map (fun k : ℕ => a + (k : ℤ))
  else []

/-- The values visited by `let mut x = a; while x <= b { ...; x += s }`
for a positive step `s` (the LOD rasterizer only reaches this loop with
`s = skip_factor ≥ 2`). -/
def stepRangeIncl (a b s : ℤ) : List ℤ :=
  if 0 < s ∧ a ≤ b then
    (List.range ((b - a).toNat / s.toNat).succ).map (fun k : ℕ => a + (k : ℤ) * s)
  else []

/-- The `edge_function` of src/rasterizer.rs:271: 2D cross product deciding on
which side of the directed line `a → b` the point `c` lies; also twice the
signed area of the triangle `(a, b, c)`. -/
def edge_function (ax ay bx bY cx cy : ℚ) : ℚ :=
  (cx - ax) * (bY - ay) - (cy - ay) * (bx - ax)

/-- The `interpolate_color` function of src/rasterizer.rs:276: barycentric blend of three
colors, each channel clamped to `[0,255]` and truncated to `u8`. -/
def interpolate_color (c0 c1 c2 : Color) (w0 w1 w2 : ℚ) : Color :=
  { r := u8ofQ (w0 * c0.r + w1 * c1.r + w2 * c2.r)
    g := u8ofQ (w0 * c0.g + w1 * c1.g + w2 * c2.g)
    b := u8ofQ (w0 * c0.b + w1 * c1.b + w2 * c2.b)
    a := u8ofQ (w0 * c0.a + w1 * c1.a + w2 * c2.a) }

/-- Total signed area of a triangle via `edge_function` on its three
screen-space vertices (src/rasterizer.rs:76-80). -/
def total_area (t : Triangle) : ℚ :=
  edge_function
    t.v0.screen_position.x t.v0.screen_position.y
    t.v1.screen_position.x t.v1.screen_position.y
    t.v2.screen_position.x t.v2.screen_position.y

/-- First barycentric weight at point `(px, py)` (src/rasterizer.rs:98-102):
`edge_function(v1, v2, p) * inv_total_area`. -/
def bary_w0 (t : Triangle) (px py : ℚ) : ℚ :=
  edge_function
    t.v1.screen_position.x t.v1.screen_position.y
    t.v2.screen_position.x t.v2.screen_position.y
    px py * (1 / total_area t)

/-- Second barycentric weight (src/rasterizer.rs:104-108):
`edge_function(v2, v0, p) * inv_total_area`. -/
def bary_w1 (t : Triangle) (px py : ℚ) : ℚ :=
  edge_function
    t.v2.screen_position.x t.v2.screen_position.y
    t.v0.screen_position.x t.v0.screen_position.y
    px py * (1 / total_area t)

/-- Third barycentric weight (src/rasterizer.rs:110-114):
`edge_function(v0, v1, p) * inv_total_area`. -/
def bary_w2 (t : Triangle) (px py : ℚ) : ℚ :=
  edge_function
    t.v0.screen_position.x t.v0.screen_position.y
    t.v1.screen_position.x t.v1.screen_position.y
    px py * (1 / total_area t)

/-- Body of the per-pixel loop of `rasterize_triangle`
(src/rasterizer.rs:92-143): at pixel `(x, y)` sample the center
`(x+0.5, y+0.5)`, accept iff all three barycentric weights are `≥ 0`, and
emit one interpolated fragment. -/
def pixel_fragments (t : Triangle) (x y : ℤ) : List Fragment :=
  let px : ℚ := (x : ℚ) + 1/2
  let py : ℚ := (y : ℚ) + 1/2
  let w0 := bary_w0 t px py
  let w1 := bary_w1 t px py
  let w2 := bary_w2 t px py
  if 0 ≤ w0 ∧ 0 ≤ w1 ∧ 0 ≤ w2 then
    [{ screen_x := x
       screen_y := y
       depth := w0 * t.v0.screen_position.z + w1 * t.v1.screen_position.z +
                w2 * t.v2.screen_position.z
       normal :=
         { x := w0 * t.v0.world_normal.x + w1 * t.v1.world_normal.x +
                w2 * t.v2.world_normal.x
           y := w0 * t.v0.world_normal.y + w1 * t.v1.world_normal.y +
                w2 * t.v2.world_normal.y
           z := w0 * t.v0.world_normal.z + w1 * t.v1.world_normal.z +
                w2 * t.v2.world_normal.z }
       color := interpolate_color t.v0.color t.v1.color t.v2.color w0 w1 w2 }]
  else []

/-- The `rasterize_triangle` function of src/rasterizer.rs:42-146: bounding box, clip
against `[0, screen_width as i32 - 1] × [0, screen_height as i32 - 1]`,
early return on an empty clipped box, early return on `|total_area| < 0.001`,
then the per-pixel scan over the clipped box. -/
def rasterize_triangle (t : Triangle) (screen_width screen_height : ℚ) :
    List Fragment :=
  let min_x : ℤ := ⌊min (min t.v0.screen_position.x t.v1.screen_position.x)
      t.v2.screen_position.x⌋
  let max_x : ℤ := ⌈max (max t.v0.screen_position.x t.v1.screen_position.x)
      t.v2.screen_position.x⌉
  let min_y : ℤ := ⌊min (min t.v0.screen_position.y t.v1.screen_position.y)
      t.v2.screen_position.y⌋
  let max_y : ℤ := ⌈max (max t.v0.screen_position.y t.v1.screen_position.y)
      t.v2.screen_position.y⌉
  let screen_min_x : ℤ := 0
  let screen_max_x : ℤ := truncToInt screen_width - 1
  let screen_min_y : ℤ := 0
  let screen_max_y : ℤ := truncToInt screen_height - 1
  let clipped_min_x := max min_x screen_min_x
  let clipped_max_x := min max_x screen_max_x
  let clipped_min_y := max min_y screen_min_y
  let clipped_max_y := min max_y screen_max_y
  if clipped_max_x < clipped_min_x ∨ clipped_max_y < clipped_min_y then []
  else if |total_area t| < 1/1000 then []
  else
    (intRangeIncl clipped_min_y clipped_max_y).flatMap fun y =>
      (intRangeIncl clipped_min_x clipped_max_x).flatMap fun x =>
        pixel_fragments t x y

/-- The `rasterize_triangle_lod` function of src/rasterizer.rs:158-260: identical to
`rasterize_triangle` except that the pixel loops advance by `skip_factor`;
`skip_factor ≤ 1` delegates to the full-resolution path. -/
def rasterize_triangle_lod (t : Triangle) (skip_factor : ℤ)
    (screen_width screen_height : ℚ) : List Fragment :=
  if skip_factor ≤ 1 then rasterize_triangle t screen_width screen_height
  else
    let min_x : ℤ := ⌊min (min t.v0.screen_position.x t.v1.screen_position.x)
        t.v2.screen_position.x⌋
    let max_x : ℤ := ⌈max (max t.v0.screen_position.x t.v1.screen_position.x)
        t.v2.screen_position.x⌉
    let min_y : ℤ := ⌊min (min t.v0.screen_position.y t.v1.screen_position.y)
        t.v2.screen_position.y⌋
    let max_y : ℤ := ⌈max (max t.v0.screen_position.y t.v1.screen_position.y)
        t.v2.screen_position.y⌉
    let screen_min_x : ℤ := 0
    let screen_max_x : ℤ := truncToInt screen_width - 1
    let screen_min_y : ℤ := 0
    let screen_max_y : ℤ := truncToInt screen_height - 1
    let clipped_min_x := max min_x screen_min_x
    let clipped_max_x := min max_x screen_max_x
    let clipped_min_y := max min_y screen_min_y
    let clipped_max_y := min max_y screen_max_y
    if clipped_max_x < clipped_min_x ∨ clipped_max_y < clipped_min_y then []
    else if |total_area t| < 1/1000 then []
    else
      (stepRangeIncl clipped_min_y clipped_max_y skip_factor).flatMap fun y =>
        (stepRangeIncl clipped_min_x clipped_max_x skip_factor).flatMap fun x =>
          pixel_fragments t x y

/-! ## Primitive assembly (`src/primitive_assembly.rs`) -/

/-- The cross product computed by `Triangle::is_front_facing` of src/primitive_assembly.rs:33-49: sign of
the 2D cross product of the first two screen-space edges; positive means
counter-clockwise, i.e. front-facing. -/
def front_cross_z (t : Triangle) : ℚ :=
  let edge1_x := t.v1.screen_position.x - t.v0.screen_position.x
  let edge1_y := t.v1.screen_position.y - t.v0.screen_position.y
  let edge2_x := t.v2.screen_position.x - t.v0.screen_position.x
  let edge2_y := t.v2.screen_position.y - t.v0.screen_position.y
  edge1_x * edge2_y - edge1_y * edge2_x

/-- The method `Triangle::is_front_facing` returns `cross_z > 0.0`. -/
def Triangle.is_front_facing (t : Triangle) : Bool :=
  decide (0 < front_cross_z t)

/-- The `assemble_triangles` function of src/primitive_assembly.rs:69-87: group an index
list in chunks of 3 and fetch the vertices by unchecked slice indexing
`vertices[chunk[k]]`; an out-of-range index panics in Rust, modelled as
`none`.  Incomplete trailing chunks (`chunk.len() != 3`) are dropped. -/
def assemble_triangles (vertices : List VertexShaderOutput)
    (indices : List ℕ) : Option (List Triangle) :=
  match indices with
  | i0 :: i1 :: i2 :: rest =>
    match vertices[i0]?, vertices[i1]?, vertices[i2]? with
    | some v0, some v1, some v2 =>
      (assemble_triangles vertices rest).map fun ts => ⟨v0, v1, v2⟩ :: ts
    | _, _, _ => none
  | _ => some []

/-- The `assemble_fan_triangles` function of src/primitive_assembly.rs:95-113: fewer than
3 vertices give nothing; otherwise `for i in 1..(len-1)` pushes
`(v0, v[i], v[i+1])`.  The loop counter `i` is `k+1` for `k` below. -/
def assemble_fan_triangles (vertices : List VertexShaderOutput) :
    List Triangle :=
  if vertices.length < 3 then []
  else
    (List.range (vertices.length - 2)).map fun k =>
      ⟨vertices.getD 0 default, vertices.getD (k + 1) default,
       vertices.getD (k + 2) default⟩

/-! ## Fragment shader (`src/fragment_shader.rs`) -/

/-- Lighting configuration (src/fragment_shader.rs:10-19). -/
structure LightingConfig where
  light_direction : Vec3
  ambient_intensity : ℚ
  diffuse_intensity : ℚ
  enable_lighting : Bool
deriving DecidableEq, Repr, Inhabited

/-- The `dot_product` function of src/fragment_shader.rs:160-162. -/
def dot_product (a b : Vec3) : ℚ :=
  a.x * b.x + a.y * b.y + a.z * b.z

/-- The `normalize_vector3` function of src/fragment_shader.rs:149-156, parametrized by
the square-root operation `sq` (`f32::sqrt` has no exact rational
counterpart; every theorem below holds for every `sq`): divide by the
length when it is positive, otherwise fall back to `(0, 1, 0)`. -/
def normalize_vector3 (sq : ℚ → ℚ) (v : Vec3) : Vec3 :=
  let length := sq (v.x * v.x + v.y * v.y + v.z * v.z)
  if 0 < length then ⟨v.x / length, v.y / length, v.z / length⟩
  else ⟨0, 1, 0⟩

/-- The `apply_lighting_to_color` function of src/fragment_shader.rs:138-145: scale the
R, G, B channels by the light factor, clamp to `[0,255]`, keep alpha. -/
def apply_lighting_to_color (color : Color) (light_factor : ℚ) : Color :=
  { r := u8ofQ (color.r * light_factor)
    g := u8ofQ (color.g * light_factor)
    b := u8ofQ (color.b * light_factor)
    a := color.a }

/-- The total light factor computed by `fragment_shader`
(src/fragment_shader.rs:59-72): ambient plus Lambertian diffuse, capped at 1. -/
def fragment_total_light (sq : ℚ → ℚ) (normal : Vec3)
    (config : LightingConfig) : ℚ :=
  let normalized_normal := normalize_vector3 sq normal
  let light_dir := normalize_vector3 sq config.light_direction
  let diffuse_factor := max (dot_product normalized_normal light_dir) 0
  let diffuse := config.diffuse_intensity * diffuse_factor
  min (config.ambient_intensity + diffuse) 1

/-- The `fragment_shader` function of src/fragment_shader.rs:49-76: with lighting
disabled return the base color unchanged; otherwise apply the total light
factor to the base color. -/
def fragment_shader (sq : ℚ → ℚ) (base_color : Color) (normal : Vec3)
    (config : LightingConfig) : Color :=
  if !config.enable_lighting then base_color
  else apply_lighting_to_color base_color (fragment_total_light sq normal config)

/-! ## Matrix (`src/matrix.rs`) -/

/-- Row-major 4×4 matrix (src/matrix.rs:5-8), the 16 cells as fields
(mirroring the `new_matrix4` constructor). -/
structure Matrix where
  m00 : ℚ
  m01 : ℚ
  m02 : ℚ
  m03 : ℚ
  m10 : ℚ
  m11 : ℚ
  m12 : ℚ
  m13 : ℚ
  m20 : ℚ
  m21 : ℚ
  m22 : ℚ
  m23 : ℚ
  m30 : ℚ
  m31 : ℚ
  m32 : ℚ
  m33 : ℚ
deriving DecidableEq, Repr, Inhabited

/-- Row 0 of `M * (p, 1)` (src/matrix.rs:49). -/
def hom_x (M : Matrix) (p : Vec3) : ℚ :=
  M.m00 * p.x + M.m01 * p.y + M.m02 * p.z + M.m03

/-- Row 1 of `M * (p, 1)` (src/matrix.rs:50). -/
def hom_y (M : Matrix) (p : Vec3) : ℚ :=
  M.m10 * p.x + M.m11 * p.y + M.m12 * p.z + M.m13

/-- Row 2 of `M * (p, 1)` (src/matrix.rs:51). -/
def hom_z (M : Matrix) (p : Vec3) : ℚ :=
  M.m20 * p.x + M.m21 * p.y + M.m22 * p.z + M.m23

/-- Row 3 of `M * (p, 1)` (src/matrix.rs:52): the homogeneous coordinate. -/
def hom_w (M : Matrix) (p : Vec3) : ℚ :=
  M.m30 * p.x + M.m31 * p.y + M.m32 * p.z + M.m33

/-- The method `Matrix::transform_point` of src/matrix.rs:48-59: apply the matrix to
the homogeneous point `(p, 1)`; if `w != 0` divide by `w`, otherwise return
the undivided components. -/
def Matrix.transform_point (M : Matrix) (p : Vec3) : Vec3 :=
  let x := hom_x M p
  let y := hom_y M p
  let z := hom_z M p
  let w := hom_w M p
  if w ≠ 0 then ⟨x / w, y / w, z / w⟩ else ⟨x, y, z⟩

/-! ## Renderer LOD and face loop (`src/renderer.rs`) -/

/-- Apparent radius of a body (src/renderer.rs:1069):
`body.radius * screen_width / (distance_to_camera * 2.0)`. -/
def apparent_radius (radius screen_width distance_to_camera : ℚ) : ℚ :=
  radius * screen_width / (distance_to_camera * 2)

/-- The body-skip guard of `render_obj_model_to_framebuffer`
(src/renderer.rs:1072-1074): a body whose apparent radius is below 0.3
pixels is not rendered at all. -/
def skips_body (r : ℚ) : Bool :=
  decide (r < 3/10)

/-- The LOD face-skip factor (src/renderer.rs:1077-1085). -/
def face_skip (r : ℚ) : ℤ :=
  if r < 3 then 8
  else if r < 8 then 4
  else if r < 20 then 2
  else 1

/-- The vertex-fetch phase of the face loop of
`render_obj_model_to_framebuffer` (src/renderer.rs:1094-1110): faces with
fewer than 3 indices are skipped; a fan triangle `(face[0], face[i],
face[i+1])` is fetched only when all three indices are in range, and a
triangle with an out-of-range index is skipped by `continue`.  The loop
counter `i` is `k+1` for `k` below. -/
def face_fetch_triangles (verts : List Vec3) (face : List ℕ) :
    List (Vec3 × Vec3 × Vec3) :=
  if face.length < 3 then []
  else
    (List.range (face.length - 2)).flatMap fun k =>
      let v0_idx := face.getD 0 0
      let v1_idx := face.getD (k + 1) 0
      let v2_idx := face.getD (k + 2) 0
      if verts.length ≤ v0_idx ∨ verts.length ≤ v1_idx ∨
          verts.length ≤ v2_idx then []
      else
        [(verts.getD v0_idx default, verts.getD v1_idx default,
          verts.getD v2_idx default)]

/-! ## Concrete instances used by witnesses and counterexamples -/

/-- Opaque white, as in the repository's tests. -/
def whiteC : Color := ⟨255, 255, 255, 255⟩

/-- A processed vertex at screen position `(x, y, 0)` with normal `(0,0,1)`. -/
def mkV (x y : ℚ) : VertexShaderOutput := ⟨⟨x, y, 0⟩, ⟨0, 0, 1⟩, whiteC⟩

/-- The CCW triangle with screen positions `(0,0)`, `(1,0)`, `(0,1)`. -/
def triUnit : Triangle := ⟨mkV 0 0, mkV 1 0, mkV 0 1⟩

/-- Triangle `triUnit` with the last two vertices swapped (CW winding). -/
def triUnitCW : Triangle := ⟨mkV 0 0, mkV 0 1, mkV 1 0⟩

/-- The triangle of the spec example lying entirely outside an 800×600
screen: vertices `(-100,-100)`, `(-90,-100)`, `(-100,-90)`. -/
def triOutside : Triangle := ⟨mkV (-100) (-100), mkV (-90) (-100), mkV (-100) (-90)⟩

/-- A degenerate triangle with three collinear vertices. -/
def triDegenerate : Triangle := ⟨mkV 0 0, mkV 1 0, mkV 2 0⟩

/-- The one fragment that `rasterize_triangle triUnit` produces. -/
def fragUnit : Fragment := ⟨0, 0, 0, ⟨0, 0, 1⟩, whiteC⟩

/-- The identity matrix. -/
def idMatrix : Matrix := ⟨1, 0, 0, 0, 0, 1, 0, 0, 0, 0, 1, 0, 0, 0, 0, 1⟩

/-- A matrix whose last row is zero, so `hom_w` is 0 for every point. -/
def zeroWMatrix : Matrix := ⟨1, 0, 0, 0, 0, 1, 0, 0, 0, 0, 1, 0, 0, 0, 0, 0⟩

/-- A sample point. -/
def pointP : Vec3 := ⟨1, 2, 3⟩

/-- Three model-space vertices. -/
def verts3 : List Vec3 := [⟨0, 0, 0⟩, ⟨1, 0, 0⟩, ⟨0, 1, 0⟩]

/-- Four processed vertices forming a quad, as in the repository's
fan-triangulation test. -/
def vsFan : List VertexShaderOutput := [mkV 0 0, mkV 1 0, mkV 1 1, mkV 0 1]

/-- A lighting configuration with lighting disabled. -/
def cfgOff : LightingConfig := ⟨⟨-1, -1, -1⟩, 3/10, 7/10, false⟩

/-! ## Helper lemmas -/

theorem mem_intRangeIncl {v a b : ℤ} (h : v ∈ intRangeIncl a b) :
    a ≤ v ∧ v ≤ b := by
  unfold intRangeIncl at h
  split at h
  · simp only [List.mem_map, List.mem_range] at h
    obtain ⟨k, hk, rfl⟩ := h
    omega
  · simp at h

theorem mem_pixel_fragments {t : Triangle} {x y : ℤ} {f : Fragment}
    (h : f ∈ pixel_fragments t x y) :
    f.screen_x = x ∧ f.screen_y = y ∧
    0 ≤ bary_w0 t ((x : ℚ) + 1/2) ((y : ℚ) + 1/2) ∧
    0 ≤ bary_w1 t ((x : ℚ) + 1/2) ((y : ℚ) + 1/2) ∧
    0 ≤ bary_w2 t ((x : ℚ) + 1/2) ((y : ℚ) + 1/2) := by
  simp only [pixel_fragments] at h
  split at h
  · next hc =>
    rcases List.mem_singleton.1 h with rfl
    exact ⟨rfl, rfl, hc.1, hc.2.1, hc.2.2⟩
  · simp at h

theorem rasterize_triangle_mem {t : Triangle} {w h : ℚ} {f : Fragment}
    (hf : f ∈ rasterize_triangle t w h) :
    (0 ≤ f.screen_x ∧ f.screen_x ≤ truncToInt w - 1 ∧
     0 ≤ f.screen_y ∧ f.screen_y ≤ truncToInt h - 1) ∧
    ¬ |total_area t| < 1/1000 ∧
    0 ≤ bary_w0 t ((f.screen_x : ℚ) + 1/2) ((f.screen_y : ℚ) + 1/2) ∧
    0 ≤ bary_w1 t ((f.screen_x : ℚ) + 1/2) ((f.screen_y : ℚ) + 1/2) ∧
    0 ≤ bary_w2 t ((f.screen_x : ℚ) + 1/2) ((f.screen_y : ℚ) + 1/2) := by
  simp only [rasterize_triangle] at hf
  split at hf
  · simp at hf
  split at hf
  · simp at hf
  next harea =>
  rcases List.mem_flatMap.1 hf with ⟨y, hy, hf⟩
  rcases List.mem_flatMap.1 hf with ⟨x, hx, hf⟩
  obtain ⟨hfx, hfy, h0, h1, h2⟩ := mem_pixel_fragments hf
  have hy' := mem_intRangeIncl hy
  have hx' := mem_intRangeIncl hx
  rw [hfx, hfy]
  refine ⟨⟨?_, ?_, ?_, ?_⟩, harea, h0, h1, h2⟩
  · exact le_trans (le_max_right _ _) hx'.1
  · exact le_trans hx'.2 (min_le_right _ _)
  · exact le_trans (le_max_right _ _) hy'.1
  · exact le_trans hy'.2 (min_le_right _ _)

theorem edge_sum (t : Triangle) (px py : ℚ) :
    edge_function t.v1.screen_position.x t.v1.screen_position.y
      t.v2.screen_position.x t.v2.screen_position.y px py +
    edge_function t.v2.screen_position.x t.v2.screen_position.y
      t.v0.screen_position.x t.v0.screen_position.y px py +
    edge_function t.v0.screen_position.x t.v0.screen_position.y
      t.v1.screen_position.x t.v1.screen_position.y px py =
    total_area t := by
  unfold total_area edge_function
  ring

theorem bary_sum (t : Triangle) (px py : ℚ) (hA : total_area t ≠ 0) :
    bary_w0 t px py + bary_w1 t px py + bary_w2 t px py = 1 := by
  unfold bary_w0 bary_w1 bary_w2
  rw [← add_mul, ← add_mul, edge_sum]
  exact mul_one_div_cancel hA

/-! ## Claims -/

/-- Claim C1. Every fragment returned by `rasterize_triangle` has integer
screen coordinates inside `[0, (w as i32) - 1] × [0, (h as i32) - 1]`, for
every triangle and positive screen dimensions; and for the spec's example
triangle whose bounding box lies entirely outside an 800×600 screen the
clipped box is empty and the result is the empty fragment list. -/
theorem rasterize_fragments_within_screen_bounds :
    (∀ (t : Triangle) (w h : ℚ), 0 < w → 0 < h →
      ∀ f ∈ rasterize_triangle t w h,
        0 ≤ f.screen_x ∧ f.screen_x ≤ truncToInt w - 1 ∧
        0 ≤ f.screen_y ∧ f.screen_y ≤ truncToInt h - 1) ∧
    rasterize_triangle triOutside 800 600 = [] := by
  constructor
  · intro t w h _ _ f hf
    obtain ⟨⟨a, b, c, d⟩, -⟩ := rasterize_triangle_mem hf
    exact ⟨a, b, c, d⟩
  · decide

unseal Rat.mul Rat.inv Rat.add Rat.sub in
/-- Witness for C1 at the concrete triangle `triUnit` on an 800×600 screen:
its single fragment `fragUnit` lies within the screen bounds. -/
theorem rasterize_fragments_within_screen_bounds_witness :
    (0:ℚ) < 800 ∧ (0:ℚ) < 600 ∧ fragUnit ∈ rasterize_triangle triUnit 800 600 ∧
    (0 ≤ fragUnit.screen_x ∧ fragUnit.screen_x ≤ truncToInt 800 - 1 ∧
     0 ≤ fragUnit.screen_y ∧ fragUnit.screen_y ≤ truncToInt 600 - 1) :=
  ⟨by norm_num, by norm_num, by decide,
    rasterize_fragments_within_screen_bounds.1 triUnit 800 600 (by norm_num)
      (by norm_num) fragUnit (by decide)⟩

/-- Claim C2. For a triangle whose total signed area has absolute value at
least 0.001, the three barycentric weights computed at the pixel center of
any fragment emitted by `rasterize_triangle` are each `≥ 0` and sum to
exactly 1 (exact rational arithmetic). -/
theorem rasterize_barycentric_weights_nonneg_sum_one
    (t : Triangle) (hA : 1/1000 ≤ |total_area t|) (w h : ℚ) (f : Fragment)
    (hf : f ∈ rasterize_triangle t w h) :
    0 ≤ bary_w0 t ((f.screen_x : ℚ) + 1/2) ((f.screen_y : ℚ) + 1/2) ∧
    0 ≤ bary_w1 t ((f.screen_x : ℚ) + 1/2) ((f.screen_y : ℚ) + 1/2) ∧
    0 ≤ bary_w2 t ((f.screen_x : ℚ) + 1/2) ((f.screen_y : ℚ) + 1/2) ∧
    bary_w0 t ((f.screen_x : ℚ) + 1/2) ((f.screen_y : ℚ) + 1/2) +
      bary_w1 t ((f.screen_x : ℚ) + 1/2) ((f.screen_y : ℚ) + 1/2) +
      bary_w2 t ((f.screen_x : ℚ) + 1/2) ((f.screen_y : ℚ) + 1/2) = 1 := by
  obtain ⟨-, -, h0, h1, h2⟩ := rasterize_triangle_mem hf
  have hA0 : total_area t ≠ 0 := by
    intro h0'
    rw [h0', abs_zero] at hA
    norm_num at hA
  exact ⟨h0, h1, h2, bary_sum t _ _ hA0⟩

unseal Rat.mul Rat.inv Rat.add Rat.sub in
/-- Witness for C2 at `triUnit` (total area `-1`) and its fragment
`fragUnit`. -/
theorem rasterize_barycentric_weights_nonneg_sum_one_witness :
    1/1000 ≤ |total_area triUnit| ∧ fragUnit ∈ rasterize_triangle triUnit 800 600 ∧
    (0 ≤ bary_w0 triUnit ((fragUnit.screen_x : ℚ) + 1/2) ((fragUnit.screen_y : ℚ) + 1/2) ∧
     0 ≤ bary_w1 triUnit ((fragUnit.screen_x : ℚ) + 1/2) ((fragUnit.screen_y : ℚ) + 1/2) ∧
     0 ≤ bary_w2 triUnit ((fragUnit.screen_x : ℚ) + 1/2) ((fragUnit.screen_y : ℚ) + 1/2) ∧
     bary_w0 triUnit ((fragUnit.screen_x : ℚ) + 1/2) ((fragUnit.screen_y : ℚ) + 1/2) +
       bary_w1 triUnit ((fragUnit.screen_x : ℚ) + 1/2) ((fragUnit.screen_y : ℚ) + 1/2) +
       bary_w2 triUnit ((fragUnit.screen_x : ℚ) + 1/2) ((fragUnit.screen_y : ℚ) + 1/2) = 1) :=
  ⟨by decide, by decide,
    rasterize_barycentric_weights_nonneg_sum_one triUnit (by decide) 800 600
      fragUnit (by decide)⟩

/-- Claim C5. A triangle whose total signed area has absolute value strictly
below 0.001 rasterizes to the empty fragment list, for all screen
dimensions, in both `rasterize_triangle` and `rasterize_triangle_lod`. -/
theorem degenerate_triangle_yields_no_fragments
    (t : Triangle) (hA : |total_area t| < 1/1000) (w h : ℚ) (skip_factor : ℤ) :
    rasterize_triangle t w h = [] ∧
    rasterize_triangle_lod t skip_factor w h = [] := by
  have hmain : rasterize_triangle t w h = [] := by
    rw [List.eq_nil_iff_forall_not_mem]
    intro f hf
    exact (rasterize_triangle_mem hf).2.1 hA
  refine ⟨hmain, ?_⟩
  rw [List.eq_nil_iff_forall_not_mem]
  intro f hf
  simp only [rasterize_triangle_lod] at hf
  repeat' split at hf
  all_goals first
    | exact absurd hA (by assumption)
    | simp at hf
    | (rw [hmain] at hf; simp at hf)

unseal Rat.mul Rat.inv Rat.add Rat.sub in
/-- Witness for C5 at the collinear triangle `triDegenerate` (area 0),
an 800×600 screen and LOD skip factor 2. -/
theorem degenerate_triangle_yields_no_fragments_witness :
    |total_area triDegenerate| < 1/1000 ∧
    rasterize_triangle triDegenerate 800 600 = [] ∧
    rasterize_triangle_lod triDegenerate 2 800 600 = [] :=
  ⟨by decide, degenerate_triangle_yields_no_fragments triDegenerate (by decide) 800 600 2⟩

/-- Claim C3. The orchestrator's LOD face-skip factor is a non-increasing
step function of the apparent radius: bodies below 0.3 px are skipped
entirely, the factor is 8 below 3 px, 4 below 8 px, 2 below 20 px and 1
otherwise, and at the boundary radii 3, 8 and 20 the next-finer skip
applies. -/
theorem lod_face_skip_step_function :
    (∀ r1 r2 : ℚ, r1 ≤ r2 → face_skip r2 ≤ face_skip r1) ∧
    (∀ r : ℚ, skips_body r = true ↔ r < 3/10) ∧
    (∀ r : ℚ, r < 3 → face_skip r = 8) ∧
    (∀ r : ℚ, 3 ≤ r → r < 8 → face_skip r = 4) ∧
    (∀ r : ℚ, 8 ≤ r → r < 20 → face_skip r = 2) ∧
    (∀ r : ℚ, 20 ≤ r → face_skip r = 1) ∧
    face_skip 3 = 4 ∧ face_skip 8 = 2 ∧ face_skip 20 = 1 := by
  refine ⟨?_, ?_, ?_, ?_, ?_, ?_, ?_, ?_, ?_⟩
  · intro r1 r2 h12
    unfold face_skip
    split_ifs <;> first | (exfalso; linarith) | norm_num
  · intro r
    simp [skips_body]
  · intro r hr
    unfold face_skip
    rw [if_pos hr]
  · intro r hr3 hr8
    unfold face_skip
    rw [if_neg (by linarith), if_pos hr8]
  · intro r hr8 hr20
    unfold face_skip
    rw [if_neg (by linarith), if_neg (by linarith), if_pos hr20]
  · intro r hr20
    unfold face_skip
    rw [if_neg (by linarith), if_neg (by linarith), if_neg (by linarith)]
  · norm_num [face_skip]
  · norm_num [face_skip]
  · norm_num [face_skip]

unseal Rat.mul Rat.inv Rat.add Rat.sub in
/-- Witness for C3 at concrete radii: monotonicity at `2 ≤ 5`, and each
bucket at a sample point. -/
theorem lod_face_skip_step_function_witness :
    ((2:ℚ) ≤ 5 ∧ face_skip 5 ≤ face_skip 2) ∧
    (skips_body (1/4) = true ↔ (1/4 : ℚ) < 3/10) ∧
    ((1:ℚ) < 3 ∧ face_skip 1 = 8) ∧
    ((3:ℚ) ≤ 4 ∧ (4:ℚ) < 8 ∧ face_skip 4 = 4) ∧
    ((8:ℚ) ≤ 10 ∧ (10:ℚ) < 20 ∧ face_skip 10 = 2) ∧
    ((20:ℚ) ≤ 25 ∧ face_skip 25 = 1) :=
  ⟨⟨by norm_num, lod_face_skip_step_function.1 2 5 (by norm_num)⟩,
   lod_face_skip_step_function.2.1 (1/4),
   ⟨by norm_num, lod_face_skip_step_function.2.2.1 1 (by norm_num)⟩,
   ⟨by norm_num, by norm_num,
    lod_face_skip_step_function.2.2.2.1 4 (by norm_num) (by norm_num)⟩,
   ⟨by norm_num, by norm_num,
    lod_face_skip_step_function.2.2.2.2.1 10 (by norm_num) (by norm_num)⟩,
   ⟨by norm_num, lod_face_skip_step_function.2.2.2.2.2.1 25 (by norm_num)⟩⟩

/-- Claim C6. With lighting disabled, `fragment_shader` returns the input
base color exactly, in all four channels, for every square-root operation,
base color, normal and configuration. -/
theorem fragment_shader_identity_when_lighting_disabled
    (sq : ℚ → ℚ) (base_color : Color) (normal : Vec3)
    (config : LightingConfig) (hc : config.enable_lighting = false) :
    fragment_shader sq base_color normal config = base_color ∧
    (fragment_shader sq base_color normal config).r = base_color.r ∧
    (fragment_shader sq base_color normal config).g = base_color.g ∧
    (fragment_shader sq base_color normal config).b = base_color.b ∧
    (fragment_shader sq base_color normal config).a = base_color.a := by
  have he : fragment_shader sq base_color normal config = base_color := by
    simp [fragment_shader, hc]
  rw [he]
  exact ⟨rfl, rfl, rfl, rfl, rfl⟩

/-- Witness for C6 at a concrete disabled configuration. -/
theorem fragment_shader_identity_when_lighting_disabled_witness :
    cfgOff.enable_lighting = false ∧
    fragment_shader (fun q => q) whiteC pointP cfgOff = whiteC :=
  ⟨by decide,
   (fragment_shader_identity_when_lighting_disabled (fun q => q) whiteC pointP
     cfgOff (by decide)).1⟩

unseal Rat.mul Rat.inv Rat.add Rat.sub in
/-- Claim C8. The triangle with screen positions `(0,0)`, `(1,0)`, `(0,1)` is
front-facing, swapping the last two vertices makes it back-facing, and in
general `is_front_facing` holds exactly when the 2D cross product of the
first two screen-space edges is strictly positive. -/
theorem front_facing_iff_positive_cross :
    triUnit.is_front_facing = true ∧
    triUnitCW.is_front_facing = false ∧
    ∀ t : Triangle, t.is_front_facing = true ↔ 0 < front_cross_z t := by
  refine ⟨by decide, by decide, fun t => ?_⟩
  simp [Triangle.is_front_facing]

/-- Claim C9. The method `Matrix::transform_point` is total: when the homogeneous
coordinate `w` of `M * (p, 1)` is zero it returns the undivided
components, and it divides by `w` exactly when `w` is nonzero. -/
theorem transform_point_total_and_guarded (M : Matrix) (p : Vec3) :
    (hom_w M p = 0 →
      M.transform_point p = ⟨hom_x M p, hom_y M p, hom_z M p⟩) ∧
    (hom_w M p ≠ 0 →
      M.transform_point p =
        ⟨hom_x M p / hom_w M p, hom_y M p / hom_w M p,
         hom_z M p / hom_w M p⟩) := by
  simp only [Matrix.transform_point]
  constructor
  · intro h0
    rw [if_neg (fun hn => hn h0)]
  · intro h0
    rw [if_pos h0]

unseal Rat.mul Rat.inv Rat.add Rat.sub in
/-- Witness for C9: a matrix with zero last row takes the undivided branch,
and the identity matrix (with `w = 1`) takes the division branch. -/
theorem transform_point_total_and_guarded_witness :
    (hom_w zeroWMatrix pointP = 0 ∧
      zeroWMatrix.transform_point pointP =
        ⟨hom_x zeroWMatrix pointP, hom_y zeroWMatrix pointP,
         hom_z zeroWMatrix pointP⟩) ∧
    (hom_w idMatrix pointP ≠ 0 ∧
      idMatrix.transform_point pointP =
        ⟨hom_x idMatrix pointP / hom_w idMatrix pointP,
         hom_y idMatrix pointP / hom_w idMatrix pointP,
         hom_z idMatrix pointP / hom_w idMatrix pointP⟩) :=
  ⟨⟨by decide, (transform_point_total_and_guarded zeroWMatrix pointP).1 (by decide)⟩,
   ⟨by decide, (transform_point_total_and_guarded idMatrix pointP).2 (by decide)⟩⟩

theorem u8ofQ_mono {q1 q2 : ℚ} (h : q1 ≤ q2) : u8ofQ q1 ≤ u8ofQ q2 := by
  unfold u8ofQ clampQ truncToInt
  have h1 : (0:ℚ) ≤ min (max q1 0) 255 :=
    le_min (le_max_right _ _) (by norm_num)
  have h2 : (0:ℚ) ≤ min (max q2 0) 255 :=
    le_min (le_max_right _ _) (by norm_num)
  rw [if_pos h1, if_pos h2]
  exact Int.toNat_le_toNat
    (Int.floor_le_floor (min_le_min (max_le_max h le_rfl) le_rfl))

theorem fragment_total_light_mono (sq : ℚ → ℚ) (normal ldir : Vec3)
    (amb : ℚ) {d1 d2 : ℚ} (hd : d1 ≤ d2) :
    fragment_total_light sq normal ⟨ldir, amb, d1, true⟩ ≤
      fragment_total_light sq normal ⟨ldir, amb, d2, true⟩ := by
  simp only [fragment_total_light]
  refine min_le_min (add_le_add_left ?_ amb) le_rfl
  exact mul_le_mul_of_nonneg_right hd (le_max_right _ _)

/-- Claim C7. With lighting enabled, for a fixed base color and a fixed
normal whose (normalized) dot product with the light direction is
non-negative, each output channel of `fragment_shader` is non-decreasing
in `diffuse_intensity`, and the total light factor never exceeds 1. -/
theorem fragment_shader_monotone_in_diffuse_intensity
    (sq : ℚ → ℚ) (base_color : Color) (normal ldir : Vec3) (amb d1 d2 : ℚ)
    (hdot : 0 ≤ dot_product (normalize_vector3 sq normal)
      (normalize_vector3 sq ldir))
    (hd : d1 ≤ d2) :
    ((fragment_shader sq base_color normal ⟨ldir, amb, d1, true⟩).r ≤
       (fragment_shader sq base_color normal ⟨ldir, amb, d2, true⟩).r ∧
     (fragment_shader sq base_color normal ⟨ldir, amb, d1, true⟩).g ≤
       (fragment_shader sq base_color normal ⟨ldir, amb, d2, true⟩).g ∧
     (fragment_shader sq base_color normal ⟨ldir, amb, d1, true⟩).b ≤
       (fragment_shader sq base_color normal ⟨ldir, amb, d2, true⟩).b ∧
     (fragment_shader sq base_color normal ⟨ldir, amb, d1, true⟩).a =
       (fragment_shader sq base_color normal ⟨ldir, amb, d2, true⟩).a) ∧
    fragment_total_light sq normal ⟨ldir, amb, d1, true⟩ ≤ 1 ∧
    fragment_total_light sq normal ⟨ldir, amb, d2, true⟩ ≤ 1 := by
  have htl := fragment_total_light_mono sq normal ldir amb hd
  simp only [fragment_shader, apply_lighting_to_color, Bool.not_true,
    if_false]
  refine ⟨⟨?_, ?_, ?_, rfl⟩, min_le_right _ _, min_le_right _ _⟩
  · exact u8ofQ_mono (mul_le_mul_of_nonneg_left htl (Nat.cast_nonneg _))
  · exact u8ofQ_mono (mul_le_mul_of_nonneg_left htl (Nat.cast_nonneg _))
  · exact u8ofQ_mono (mul_le_mul_of_nonneg_left htl (Nat.cast_nonneg _))

unseal Rat.mul Rat.inv Rat.add Rat.sub in
/-- Witness for C7: identity square root, normal and light direction both
`(0,1,0)` (normalized dot product 1), diffuse intensities `3/10 ≤ 7/10`. -/
theorem fragment_shader_monotone_in_diffuse_intensity_witness :
    0 ≤ dot_product (normalize_vector3 (fun q => q) ⟨0, 1, 0⟩)
      (normalize_vector3 (fun q => q) ⟨0, 1, 0⟩) ∧
    (3/10 : ℚ) ≤ 7/10 ∧
    (((fragment_shader (fun q => q) whiteC ⟨0, 1, 0⟩
         ⟨⟨0, 1, 0⟩, 3/10, 3/10, true⟩).r ≤
       (fragment_shader (fun q => q) whiteC ⟨0, 1, 0⟩
         ⟨⟨0, 1, 0⟩, 3/10, 7/10, true⟩).r ∧
      (fragment_shader (fun q => q) whiteC ⟨0, 1, 0⟩
         ⟨⟨0, 1, 0⟩, 3/10, 3/10, true⟩).g ≤
       (fragment_shader (fun q => q) whiteC ⟨0, 1, 0⟩
         ⟨⟨0, 1, 0⟩, 3/10, 7/10, true⟩).g ∧
      (fragment_shader (fun q => q) whiteC ⟨0, 1, 0⟩
         ⟨⟨0, 1, 0⟩, 3/10, 3/10, true⟩).b ≤
       (fragment_shader (fun q => q) whiteC ⟨0, 1, 0⟩
         ⟨⟨0, 1, 0⟩, 3/10, 7/10, true⟩).b ∧
      (fragment_shader (fun q => q) whiteC ⟨0, 1, 0⟩
         ⟨⟨0, 1, 0⟩, 3/10, 3/10, true⟩).a =
       (fragment_shader (fun q => q) whiteC ⟨0, 1, 0⟩
         ⟨⟨0, 1, 0⟩, 3/10, 7/10, true⟩).a) ∧
     fragment_total_light (fun q => q) ⟨0, 1, 0⟩ ⟨⟨0, 1, 0⟩, 3/10, 3/10, true⟩ ≤ 1 ∧
     fragment_total_light (fun q => q) ⟨0, 1, 0⟩ ⟨⟨0, 1, 0⟩, 3/10, 7/10, true⟩ ≤ 1) :=
  ⟨by decide, by norm_num,
   fragment_shader_monotone_in_diffuse_intensity (fun q => q) whiteC
     ⟨0, 1, 0⟩ ⟨0, 1, 0⟩ (3/10) (3/10) (7/10) (by decide) (by norm_num)⟩

/-- Claim C10. Fan triangulation: fewer than 3 vertices yield no triangles;
`n ≥ 3` vertices yield exactly `n - 2` triangles, the `i`-th (for
`i = 1 .. n-2`) being `(v0, v_i, v_{i+1})` with vertex 0 as pivot. -/
theorem fan_triangulation_structure (vertices : List VertexShaderOutput) :
    (vertices.length < 3 → assemble_fan_triangles vertices = []) ∧
    (3 ≤ vertices.length →
      (assemble_fan_triangles vertices).length = vertices.length - 2 ∧
      ∀ i : ℕ, 1 ≤ i → i ≤ vertices.length - 2 →
        (assemble_fan_triangles vertices).getD (i - 1) default =
          ⟨vertices.getD 0 default, vertices.getD i default,
           vertices.getD (i + 1) default⟩) := by
  constructor
  · intro hlt
    unfold assemble_fan_triangles
    rw [if_pos hlt]
  · intro h3
    have hn : ¬ vertices.length < 3 := not_lt.2 h3
    have hlen : (assemble_fan_triangles vertices).length = vertices.length - 2 := by
      unfold assemble_fan_triangles
      rw [if_neg hn]
      simp
    refine ⟨hlen, fun i h1 h2 => ?_⟩
    have hi : i - 1 < (assemble_fan_triangles vertices).length := by omega
    rw [List.getD_eq_getElem _ _ hi]
    unfold assemble_fan_triangles
    simp only [if_neg hn, List.getElem_map, List.getElem_range]
    have e1 : i - 1 + 1 = i := by omega
    have e2 : i - 1 + 2 = i + 1 := by omega
    rw [e1, e2]

/-- Witness for C10 on the four-vertex quad `vsFan`: two triangles, the
second being `(v0, v2, v3)`. -/
theorem fan_triangulation_structure_witness :
    3 ≤ vsFan.length ∧
    (assemble_fan_triangles vsFan).length = vsFan.length - 2 ∧
    (1:ℕ) ≤ 2 ∧ 2 ≤ vsFan.length - 2 ∧
    (assemble_fan_triangles vsFan).getD (2 - 1) default =
      ⟨vsFan.getD 0 default, vsFan.getD 2 default, vsFan.getD 3 default⟩ :=
  ⟨by decide, ((fan_triangulation_structure vsFan).2 (by decide)).1,
   by decide, by decide,
   ((fan_triangulation_structure vsFan).2 (by decide)).2 2 (by decide) (by decide)⟩

theorem flatMap_length_one {α β : Type} (l : List α) (g : α → List β)
    (h : ∀ a ∈ l, (g a).length = 1) : (l.flatMap g).length = l.length := by
  induction l with
  | nil => simp
  | cons a l ih =>
    rw [List.flatMap_cons, List.length_append, h a (List.mem_cons_self a l),
      ih (fun b hb => h b (List.mem_cons_of_mem a hb)), List.length_cons]
    omega

theorem assemble_triangles_isSome_of_in_range
    (vertices : List VertexShaderOutput) :
    ∀ indices : List ℕ, (∀ i ∈ indices, i < vertices.length) →
      (assemble_triangles vertices indices).isSome = true
  | [], _ => rfl
  | [_], _ => rfl
  | [_, _], _ => rfl
  | i0 :: i1 :: i2 :: rest, h => by
    have h0 : i0 < vertices.length := h i0 (by simp)
    have h1 : i1 < vertices.length := h i1 (by simp)
    have h2 : i2 < vertices.length := h i2 (by simp)
    have ih := assemble_triangles_isSome_of_in_range vertices rest
      (fun i hi => h i (by simp [hi]))
    rw [assemble_triangles, List.getElem?_eq_getElem h0,
      List.getElem?_eq_getElem h1, List.getElem?_eq_getElem h2]
    simpa using ih

/-- Claim C4 (counterexample). The function `assemble_triangles` indexes the vertex slice
unchecked: on a face referencing vertex indices 1 and 2 of a one-vertex
list it panics (modelled as `none`) instead of silently skipping the
triangle. -/
theorem assemble_triangles_panics_on_out_of_range_index :
    assemble_triangles [mkV 0 0] [0, 1, 2] = none := by decide

/-- Claim C4 (amended). In the renderer's face loop a fan triangle is fetched
exactly when all three of its vertex indices are in range — out-of-range
triples are skipped silently while all in-range triples are processed —
and `assemble_triangles` cannot panic when every index is in range.  (The
unchecked indexing of `assemble_triangles` on out-of-range input is the
counterexample above.) -/
theorem renderer_face_loop_skips_out_of_range_indices :
    (∀ (verts : List Vec3) (face : List ℕ), 3 ≤ face.length →
      (∀ i ∈ face, i < verts.length) →
      (face_fetch_triangles verts face).length = face.length - 2) ∧
    (∀ (verts : List Vec3) (face : List ℕ) (tr : Vec3 × Vec3 × Vec3),
      tr ∈ face_fetch_triangles verts face →
      ∃ k, k < face.length - 2 ∧
        face.getD 0 0 < verts.length ∧
        face.getD (k + 1) 0 < verts.length ∧
        face.getD (k + 2) 0 < verts.length ∧
        tr = (verts.getD (face.getD 0 0) default,
              verts.getD (face.getD (k + 1) 0) default,
              verts.getD (face.getD (k + 2) 0) default)) ∧
    face_fetch_triangles verts3 [0, 1, 2, 5] =
      [(⟨0, 0, 0⟩, ⟨1, 0, 0⟩, ⟨0, 1, 0⟩)] ∧
    (∀ (vertices : List VertexShaderOutput) (indices : List ℕ),
      (∀ i ∈ indices, i < vertices.length) →
      (assemble_triangles vertices indices).isSome = true) := by
  refine ⟨?_, ?_, by decide, assemble_triangles_isSome_of_in_range⟩
  · intro verts face h3 hin
    unfold face_fetch_triangles
    rw [if_neg (not_lt.2 h3)]
    refine (flatMap_length_one _ _ ?_).trans (by simp)
    intro k hk
    rw [List.mem_range] at hk
    have hk1 : k + 1 < face.length := by omega
    have hk2 : k + 2 < face.length := by omega
    have m0 : face.getD 0 0 < verts.length := by
      rw [List.getD_eq_getElem _ _ (by omega)]
      exact hin _ (List.getElem_mem _)
    have m1 : face.getD (k + 1) 0 < verts.length := by
      rw [List.getD_eq_getElem _ _ hk1]
      exact hin _ (List.getElem_mem _)
    have m2 : face.getD (k + 2) 0 < verts.length := by
      rw [List.getD_eq_getElem _ _ hk2]
      exact hin _ (List.getElem_mem _)
    dsimp only
    rw [if_neg (by push_neg; exact ⟨m0, m1, m2⟩)]
    rfl
  · intro verts face tr htr
    unfold face_fetch_triangles at htr
    split at htr
    · simp at htr
    · rw [List.mem_flatMap] at htr
      obtain ⟨k, hk, htr⟩ := htr
      rw [List.mem_range] at hk
      refine ⟨k, hk, ?_⟩
      dsimp only at htr
      split at htr
      · simp at htr
      · next hcond =>
        push_neg at hcond
        exact ⟨hcond.1, hcond.2.1, hcond.2.2,
          (List.mem_singleton.1 htr)⟩

/-- Witness for the amended C4 theorem: a triangular face with all indices
in range on three vertices, fetched completely and assembled without a
panic. -/
theorem renderer_face_loop_skips_out_of_range_indices_witness :
    3 ≤ ([0, 1, 2] : List ℕ).length ∧
    (∀ i ∈ ([0, 1, 2] : List ℕ), i < verts3.length) ∧
    (face_fetch_triangles verts3 [0, 1, 2]).length =
      ([0, 1, 2] : List ℕ).length - 2 ∧
    (assemble_triangles vsFan [0, 1, 2]).isSome = true :=
  ⟨by decide, by decide,
   renderer_face_loop_skips_out_of_range_indices.1 verts3 [0, 1, 2]
     (by decide) (by decide),
   renderer_face_loop_skips_out_of_range_indices.2.2.2 vsFan [0, 1, 2]
     (by decide)⟩

end Planetas
